import Mathlib

/-!
Verification development for the indra_cogex extraction-to-bulk-file pipeline.

The Python modules under src/src/indra_cogex are shallowly embedded below:

* sources/processor.py : the Processor dump logic, the streaming validators
  validate_nodes / validate_relations, and the serializers
  _dump_nodes_to_path / _dump_edges_to_path.
* sources/cli.py : the orchestration loop building the import manifest.

Node, Relation and norm_id live in indra_cogex/representation.py and the
NodeAssembler in indra_cogex/assembly.py; both modules are absent from the
source tree given here, so those definitions are modelled from the design
document (they are marked as such in their doc comments).  The external
namespace validator assert_valid_db_refs (from the indra package) is treated
as an abstract parameter, as the design document prescribes.

Python strings are compared lexicographically by code point; we mirror this
with an executable comparison on the underlying character lists.  Python
sorted is a stable sort; List.insertionSort (foldr of orderedInsert) is also
stable, so it is a faithful model of sorted including its behaviour on ties.
-/

namespace IndraCogex

/-! ### Lexicographic string order (model of Python string comparison) -/

/-- Strict comparison of single characters by code point. -/
def charLtB (a b : Char) : Bool := a.val < b.val

/-- Strict lexicographic comparison of character lists, as Python compares
strings: the empty string precedes any nonempty string, otherwise compare
heads and fall through to the tails on equality. -/
def chLt : List Char → List Char → Bool
  | [], [] => false
  | [], _ :: _ => true
  | _ :: _, [] => false
  | a :: as, b :: bs => charLtB a b || (a == b && chLt as bs)

/-- Strict order on strings, via their character data. -/
def strLtB (a b : String) : Bool := chLt a.data b.data

/-- Non-strict order on strings. -/
def strLeB (a b : String) : Bool := a == b || strLtB a b

theorem charLtB_irrefl (a : Char) : charLtB a a = false := by
  simp [charLtB]

theorem charLtB_trans {a b c : Char} :
    charLtB a b = true → charLtB b c = true → charLtB a c = true := by
  simp only [charLtB, decide_eq_true_eq]
  exact fun h1 h2 => UInt32.lt_trans h1 h2

theorem charLtB_connex (a b : Char) :
    charLtB a b = true ∨ a = b ∨ charLtB b a = true := by
  simp only [charLtB, decide_eq_true_eq]
  rcases lt_trichotomy (a : Char) b with h | h | h
  · exact Or.inl h
  · exact Or.inr (Or.inl h)
  · exact Or.inr (Or.inr h)

theorem chLt_irrefl : ∀ l : List Char, chLt l l = false
  | [] => rfl
  | a :: as => by
    simp [chLt, charLtB_irrefl, chLt_irrefl as]

theorem chLt_trans : ∀ {l1 l2 l3 : List Char},
    chLt l1 l2 = true → chLt l2 l3 = true → chLt l1 l3 = true
  | [], [], _ :: _, _, _ => rfl
  | [], _ :: _, _ :: _, _, _ => rfl
  | a :: as, b :: bs, c :: cs, h1, h2 => by
    simp only [chLt, Bool.or_eq_true, Bool.and_eq_true, beq_iff_eq] at h1 h2 ⊢
    rcases h1 with h1 | ⟨rfl, h1⟩
    · rcases h2 with h2 | ⟨rfl, _⟩
      · exact Or.inl (charLtB_trans h1 h2)
      · exact Or.inl h1
    · rcases h2 with h2 | ⟨rfl, h2⟩
      · exact Or.inl h2
      · exact Or.inr ⟨rfl, chLt_trans h1 h2⟩

theorem chLt_connex : ∀ l1 l2 : List Char,
    chLt l1 l2 = true ∨ l1 = l2 ∨ chLt l2 l1 = true
  | [], [] => Or.inr (Or.inl rfl)
  | [], _ :: _ => Or.inl rfl
  | _ :: _, [] => Or.inr (Or.inr rfl)
  | a :: as, b :: bs => by
    simp only [chLt, Bool.or_eq_true, Bool.and_eq_true, beq_iff_eq, List.cons.injEq]
    rcases charLtB_connex a b with h | rfl | h
    · exact Or.inl (Or.inl h)
    · rcases chLt_connex as bs with h | rfl | h
      · exact Or.inl (Or.inr ⟨rfl, h⟩)
      · exact Or.inr (Or.inl ⟨rfl, rfl⟩)
      · exact Or.inr (Or.inr (Or.inr ⟨rfl, h⟩))
    · exact Or.inr (Or.inr (Or.inl h))

theorem strLtB_irrefl (s : String) : strLtB s s = false := chLt_irrefl s.data

theorem strLtB_trans {a b c : String} :
    strLtB a b = true → strLtB b c = true → strLtB a c = true :=
  chLt_trans

theorem strLtB_connex (a b : String) :
    strLtB a b = true ∨ a = b ∨ strLtB b a = true := by
  rcases chLt_connex a.data b.data with h | h | h
  · exact Or.inl h
  · exact Or.inr (Or.inl (String.ext h))
  · exact Or.inr (Or.inr h)

theorem strLeB_total (a b : String) : strLeB a b = true ∨ strLeB b a = true := by
  simp only [strLeB, Bool.or_eq_true, beq_iff_eq]
  rcases strLtB_connex a b with h | rfl | h
  · exact Or.inl (Or.inr h)
  · exact Or.inl (Or.inl rfl)
  · exact Or.inr (Or.inr h)

theorem strLeB_trans {a b c : String} :
    strLeB a b = true → strLeB b c = true → strLeB a c = true := by
  simp only [strLeB, Bool.or_eq_true, beq_iff_eq]
  rintro (rfl | h1) (rfl | h2)
  · exact Or.inl rfl
  · exact Or.inr h2
  · exact Or.inr h1
  · exact Or.inr (strLtB_trans h1 h2)

theorem strLtB_of_strLeB_of_ne {a b : String} (h : strLeB a b = true) (hne : a ≠ b) :
    strLtB a b = true := by
  simp only [strLeB, Bool.or_eq_true, beq_iff_eq] at h
  rcases h with rfl | h
  · exact absurd rfl hne
  · exact h

/-! ### Lexicographic order on identifier pairs and endpoint quadruples.
Python sorts nodes by the tuple (db_ns, db_id) and relations by the tuple
(source_ns, source_id, target_ns, target_id); tuple comparison in Python is
lexicographic with string components. -/

/-- Strict lexicographic order on a pair of strings, as Python compares
2-tuples of strings. -/
def pairLtB (a b : String × String) : Bool :=
  strLtB a.1 b.1 || (a.1 == b.1 && strLtB a.2 b.2)

/-- Non-strict lexicographic order on a pair of strings. -/
def pairLeB (a b : String × String) : Bool :=
  strLtB a.1 b.1 || (a.1 == b.1 && strLeB a.2 b.2)

/-- Strict lexicographic order on a pair of string pairs; together with
pairLtB this is exactly the Python comparison of the 4-tuple
(source_ns, source_id, target_ns, target_id). -/
def quadLtB (a b : (String × String) × (String × String)) : Bool :=
  pairLtB a.1 b.1 || (a.1 == b.1 && pairLtB a.2 b.2)

/-- Non-strict lexicographic order on a pair of string pairs. -/
def quadLeB (a b : (String × String) × (String × String)) : Bool :=
  pairLtB a.1 b.1 || (a.1 == b.1 && pairLeB a.2 b.2)

theorem pairLtB_irrefl (a : String × String) : pairLtB a a = false := by
  simp [pairLtB, strLtB_irrefl]

theorem pairLtB_trans {a b c : String × String} :
    pairLtB a b = true → pairLtB b c = true → pairLtB a c = true := by
  simp only [pairLtB, Bool.or_eq_true, Bool.and_eq_true, beq_iff_eq]
  rintro (h1 | ⟨e1, h1⟩) (h2 | ⟨e2, h2⟩)
  · exact Or.inl (strLtB_trans h1 h2)
  · exact Or.inl (e2 ▸ h1)
  · exact Or.inl (e1 ▸ h2)
  · exact Or.inr ⟨e1.trans e2, strLtB_trans h1 h2⟩

theorem pairLtB_connex (a b : String × String) :
    pairLtB a b = true ∨ a = b ∨ pairLtB b a = true := by
  simp only [pairLtB, Bool.or_eq_true, Bool.and_eq_true, beq_iff_eq, Prod.ext_iff]
  rcases strLtB_connex a.1 b.1 with h | e | h
  · exact Or.inl (Or.inl h)
  · rcases strLtB_connex a.2 b.2 with h | e2 | h
    · exact Or.inl (Or.inr ⟨e, h⟩)
    · exact Or.inr (Or.inl ⟨e, e2⟩)
    · exact Or.inr (Or.inr (Or.inr ⟨e.symm, h⟩))
  · exact Or.inr (Or.inr (Or.inl h))

theorem pairLeB_eq_or_lt (a b : String × String) :
    pairLeB a b = (decide (a = b) || pairLtB a b) := by
  rcases a with ⟨a1, a2⟩
  rcases b with ⟨b1, b2⟩
  simp only [pairLeB, pairLtB, strLeB, Prod.mk.injEq]
  by_cases h1 : a1 = b1
  · subst h1
    by_cases h2 : a2 = b2
    · subst h2
      simp [strLtB_irrefl]
    · simp [beq_false_of_ne h2, h2]
  · simp [h1, beq_false_of_ne h1]

theorem pairLeB_total (a b : String × String) :
    pairLeB a b = true ∨ pairLeB b a = true := by
  rw [pairLeB_eq_or_lt, pairLeB_eq_or_lt]
  simp only [Bool.or_eq_true, decide_eq_true_eq]
  rcases pairLtB_connex a b with h | rfl | h
  · exact Or.inl (Or.inr h)
  · exact Or.inl (Or.inl rfl)
  · exact Or.inr (Or.inr h)

theorem pairLeB_trans {a b c : String × String} :
    pairLeB a b = true → pairLeB b c = true → pairLeB a c = true := by
  rw [pairLeB_eq_or_lt, pairLeB_eq_or_lt, pairLeB_eq_or_lt]
  simp only [Bool.or_eq_true, decide_eq_true_eq]
  rintro (rfl | h1) (h2 | h2)
  · exact Or.inl h2
  · exact Or.inr h2
  · exact h2 ▸ Or.inr h1
  · exact Or.inr (pairLtB_trans h1 h2)

theorem pairLtB_of_pairLeB_of_ne {a b : String × String}
    (h : pairLeB a b = true) (hne : a ≠ b) : pairLtB a b = true := by
  rw [pairLeB_eq_or_lt] at h
  simp only [Bool.or_eq_true, decide_eq_true_eq] at h
  rcases h with rfl | h
  · exact absurd rfl hne
  · exact h

theorem quadLeB_eq_or_lt (a b : (String × String) × (String × String)) :
    quadLeB a b = (decide (a = b) || quadLtB a b) := by
  rcases a with ⟨a1, a2⟩
  rcases b with ⟨b1, b2⟩
  simp only [quadLeB, quadLtB, Prod.mk.injEq]
  rw [pairLeB_eq_or_lt]
  by_cases h1 : a1 = b1
  · subst h1
    by_cases h2 : a2 = b2
    · subst h2
      simp [pairLtB_irrefl]
    · simp [h2]
  · simp [h1, beq_false_of_ne h1]

theorem quadLtB_irrefl (a : (String × String) × (String × String)) :
    quadLtB a a = false := by
  simp [quadLtB, pairLtB_irrefl]

theorem quadLtB_trans {a b c : (String × String) × (String × String)} :
    quadLtB a b = true → quadLtB b c = true → quadLtB a c = true := by
  simp only [quadLtB, Bool.or_eq_true, Bool.and_eq_true, beq_iff_eq]
  rintro (h1 | ⟨e1, h1⟩) (h2 | ⟨e2, h2⟩)
  · exact Or.inl (pairLtB_trans h1 h2)
  · exact Or.inl (e2 ▸ h1)
  · exact Or.inl (e1 ▸ h2)
  · exact Or.inr ⟨e1.trans e2, pairLtB_trans h1 h2⟩

theorem quadLtB_connex (a b : (String × String) × (String × String)) :
    quadLtB a b = true ∨ a = b ∨ quadLtB b a = true := by
  simp only [quadLtB, Bool.or_eq_true, Bool.and_eq_true, beq_iff_eq]
  rcases pairLtB_connex a.1 b.1 with h | e | h
  · exact Or.inl (Or.inl h)
  · rcases pairLtB_connex a.2 b.2 with h | e2 | h
    · exact Or.inl (Or.inr ⟨e, h⟩)
    · exact Or.inr (Or.inl (Prod.ext e e2))
    · exact Or.inr (Or.inr (Or.inr ⟨e.symm, h⟩))
  · exact Or.inr (Or.inr (Or.inl h))

theorem quadLeB_total (a b : (String × String) × (String × String)) :
    quadLeB a b = true ∨ quadLeB b a = true := by
  rw [quadLeB_eq_or_lt, quadLeB_eq_or_lt]
  simp only [Bool.or_eq_true, decide_eq_true_eq]
  rcases quadLtB_connex a b with h | rfl | h
  · exact Or.inl (Or.inr h)
  · exact Or.inl (Or.inl rfl)
  · exact Or.inr (Or.inr h)

theorem quadLeB_trans {a b c : (String × String) × (String × String)} :
    quadLeB a b = true → quadLeB b c = true → quadLeB a c = true := by
  rw [quadLeB_eq_or_lt, quadLeB_eq_or_lt, quadLeB_eq_or_lt]
  simp only [Bool.or_eq_true, decide_eq_true_eq]
  rintro (rfl | h1) (h2 | h2)
  · exact Or.inl h2
  · exact Or.inr h2
  · exact h2 ▸ Or.inr h1
  · exact Or.inr (quadLtB_trans h1 h2)

theorem quadLtB_of_quadLeB_of_ne {a b : (String × String) × (String × String)}
    (h : quadLeB a b = true) (hne : a ≠ b) : quadLtB a b = true := by
  rw [quadLeB_eq_or_lt] at h
  simp only [Bool.or_eq_true, decide_eq_true_eq] at h
  rcases h with rfl | h
  · exact absurd rfl hne
  · exact h

/-! ### Data model -/

/-- Modelled from the spec: the Node record of indra_cogex/representation.py,
which is absent from the src tree.  A node is an identifier
(namespace, local id), a list of string labels and a mapping from string keys
to scalar values; the mapping is modelled as an association list in insertion
order, looked up by first match, which is how a Python dict built by
insertion behaves.  Attribute values are modelled as strings. -/
structure Node where
  db_ns : String
  db_id : String
  labels : List String
  data : List (String × String)
deriving DecidableEq, Repr

/-- Modelled from the spec: the Relation record of
indra_cogex/representation.py, absent from the src tree: source identifier,
target identifier, relation type and an attribute mapping. -/
structure Relation where
  source_ns : String
  source_id : String
  target_ns : String
  target_id : String
  rel_type : String
  data : List (String × String)
deriving DecidableEq, Repr

/-- An ASCII character lower-cased, as Python str.lower acts on the ASCII
range of a namespace string. -/
def lowerChar (c : Char) : Char :=
  if 65 ≤ c.toNat && c.toNat ≤ 90 then Char.ofNat (c.toNat + 32) else c

/-- A string lower-cased character by character. -/
def lowerStr (s : String) : String := ⟨s.data.map lowerChar⟩

/-- Modelled from the spec: norm_id of indra_cogex/representation.py, absent
from the src tree.  The normalized form of an identifier is the single string
namespace:local-id with the namespace lower-cased per a fixed rule. -/
def norm_id (db_ns db_id : String) : String := lowerStr db_ns ++ ":" ++ db_id

/-! ### Validator (processor.py, validate_nodes and validate_relations)

The external namespace validator assert_valid_db_refs (from the indra
package) is out of scope of the design; it is modelled as an abstract
function from a namespace and an identifier to either success or an
exception message. -/

/-- Outcome of one call of the external validator assert_valid_db_refs on a
single namespace/identifier pair: success, or an exception carrying a
message. -/
def Validator : Type := String → String → Except String Unit

/-- True when the external validator call returns without raising. -/
def okB : Except String Unit → Bool
  | Except.ok _ => true
  | Except.error _ => false

/-- The message of the exception raised by a failed validator call. -/
def errMsg : Except String Unit → String
  | Except.ok _ => ""
  | Except.error m => m

/-- Whether validate_nodes keeps a node (processor.py lines 199-204): a node
in the indra_evidence namespace is yielded without consulting the external
validator; any other node is yielded iff assert_valid_db_refs accepts its
namespace/identifier pair. -/
def nodeValid (v : Validator) (n : Node) : Bool :=
  n.db_ns == "indra_evidence" || okB (v n.db_ns n.db_id)

/-- The exception message logged when a node fails validation. -/
def nodeReason (v : Validator) (n : Node) : String := errMsg (v n.db_ns n.db_id)

/-- One line of the diagnostic log emitted for a skipped record
(processor.py lines 206 and 221): the enumeration index of the record in the
input stream, the record itself, and the exception message. -/
structure Diagnostic (α : Type) where
  idx : Nat
  record : α
  reason : String
deriving DecidableEq, Repr

/-- The generator loop of validate_nodes (processor.py lines 197-207), with
the enumeration counter made explicit: each input node is either yielded or
replaced by a diagnostic log line. -/
def validateNodesAux (v : Validator) : Nat → List Node → List Node × List (Diagnostic Node)
  | _, [] => ([], [])
  | i, n :: rest =>
    let r := validateNodesAux v (i + 1) rest
    if nodeValid v n then (n :: r.1, r.2) else (r.1, ⟨i, n, nodeReason v n⟩ :: r.2)

/-- The stream of nodes yielded by validate_nodes. -/
def validateNodes (v : Validator) (nodes : List Node) : List Node :=
  (validateNodesAux v 0 nodes).1

/-- The diagnostic log lines emitted by validate_nodes. -/
def nodeDiags (v : Validator) (nodes : List Node) : List (Diagnostic Node) :=
  (validateNodesAux v 0 nodes).2

/-- Whether validate_relations keeps a relation (processor.py lines 212-219):
when the source namespace is indra_evidence only the target endpoint is
checked against the external validator; otherwise both endpoints are
checked, source first. -/
def relValid (v : Validator) (r : Relation) : Bool :=
  if r.source_ns == "indra_evidence" then okB (v r.target_ns r.target_id)
  else okB (v r.source_ns r.source_id) && okB (v r.target_ns r.target_id)

/-- The exception message logged when a relation fails validation: the first
failing assert_valid_db_refs call raises. -/
def relReason (v : Validator) (r : Relation) : String :=
  if r.source_ns == "indra_evidence" then errMsg (v r.target_ns r.target_id)
  else if okB (v r.source_ns r.source_id) then errMsg (v r.target_ns r.target_id)
  else errMsg (v r.source_ns r.source_id)

/-- The generator loop of validate_relations (processor.py lines 210-222). -/
def validateRelationsAux (v : Validator) :
    Nat → List Relation → List Relation × List (Diagnostic Relation)
  | _, [] => ([], [])
  | i, r :: rest =>
    let t := validateRelationsAux v (i + 1) rest
    if relValid v r then (r :: t.1, t.2) else (t.1, ⟨i, r, relReason v r⟩ :: t.2)

/-- The stream of relations yielded by validate_relations. -/
def validateRelations (v : Validator) (rels : List Relation) : List Relation :=
  (validateRelationsAux v 0 rels).1

/-- The diagnostic log lines emitted by validate_relations. -/
def relDiags (v : Validator) (rels : List Relation) : List (Diagnostic Relation) :=
  (validateRelationsAux v 0 rels).2

/-! ### Sorting (processor.py line 116 and lines 165-167)

Python sorted(nodes, key=lambda x: (x.db_ns, x.db_id)) and
sorted(rels, key=lambda r: (r.source_ns, r.source_id, r.target_ns,
r.target_id)) are stable sorts by the lexicographic tuple order; they are
modelled by a stable insertion sort under the orders of the previous
section. -/

/-- The sort key of a node: the pair (db_ns, db_id). -/
def nodeKey (n : Node) : String × String := (n.db_ns, n.db_id)

/-- The sort key of a relation: the endpoint quadruple
(source_ns, source_id, target_ns, target_id), grouped as two pairs. -/
def relKey (r : Relation) : (String × String) × (String × String) :=
  ((r.source_ns, r.source_id), (r.target_ns, r.target_id))

/-- Non-strict node comparison used by the sort at processor.py line 116. -/
def NodeLe (a b : Node) : Prop := pairLeB (nodeKey a) (nodeKey b) = true

/-- Strict node order on the sort key. -/
def NodeLt (a b : Node) : Prop := pairLtB (nodeKey a) (nodeKey b) = true

/-- Non-strict relation comparison used by the sort at processor.py
lines 165-167. -/
def RelLe (a b : Relation) : Prop := quadLeB (relKey a) (relKey b) = true

/-- Strict relation order on the sort key. -/
def RelLt (a b : Relation) : Prop := quadLtB (relKey a) (relKey b) = true

instance : DecidableRel NodeLe :=
  fun a b => inferInstanceAs (Decidable (pairLeB (nodeKey a) (nodeKey b) = true))

instance : DecidableRel NodeLt :=
  fun a b => inferInstanceAs (Decidable (pairLtB (nodeKey a) (nodeKey b) = true))

instance : IsTotal Node NodeLe := ⟨fun a b => pairLeB_total (nodeKey a) (nodeKey b)⟩

instance : IsTrans Node NodeLe := ⟨fun _ _ _ => pairLeB_trans⟩

instance : DecidableRel RelLe :=
  fun a b => inferInstanceAs (Decidable (quadLeB (relKey a) (relKey b) = true))

instance : DecidableRel RelLt :=
  fun a b => inferInstanceAs (Decidable (quadLtB (relKey a) (relKey b) = true))

instance : IsTotal Relation RelLe := ⟨fun a b => quadLeB_total (relKey a) (relKey b)⟩

instance : IsTrans Relation RelLe := ⟨fun _ _ _ => quadLeB_trans⟩

/-- The sort of processor.py line 116: stable, keyed by (db_ns, db_id). -/
def sortNodes (nodes : List Node) : List Node := List.insertionSort NodeLe nodes

/-- The sort of processor.py lines 165-167: stable, keyed by the endpoint
quadruple. -/
def sortRels (rels : List Relation) : List Relation := List.insertionSort RelLe rels

/-- Non-strict string comparison, for sorting attribute keys. -/
def StrLe (a b : String) : Prop := strLeB a b = true

/-- Strict string comparison, for stating that a key list is strictly
increasing. -/
def StrLt (a b : String) : Prop := strLtB a b = true

instance : DecidableRel StrLe :=
  fun a b => inferInstanceAs (Decidable (strLeB a b = true))

instance : DecidableRel StrLt :=
  fun a b => inferInstanceAs (Decidable (strLtB a b = true))

instance : IsTotal String StrLe := ⟨strLeB_total⟩

instance : IsTrans String StrLe := ⟨fun _ _ _ => strLeB_trans⟩

/-! ### Serializer (processor.py, _dump_nodes_to_path and
_dump_edges_to_path) -/

/-- Python sorted(set(keys)): the distinct keys in increasing order. -/
def sortedKeys (ks : List String) : List String := List.insertionSort StrLe ks.dedup

/-- Every attribute key of every record in the list, in order of appearance
(processor.py line 128: key for node in nodes for key in node.data). -/
def nodeDataKeys (nodes : List Node) : List String :=
  (nodes.map (fun n => n.data.map Prod.fst)).flatten

/-- The attribute-column schema of a node file (processor.py line 128):
metadata = sorted(set(key for node in nodes for key in node.data)), computed
over the validated record set. -/
def nodeMetadata (nodes : List Node) : List String := sortedKeys (nodeDataKeys nodes)

/-- A csv field: Python csv.writer serializes None as the empty field, and
node rows use node.data.get(key, "") which defaults to the empty string. -/
def csvCell (o : Option String) : String := o.getD ""

/-- The :LABEL column: ";".join(node.labels) (processor.py line 132). -/
def joinLabels (labels : List String) : String := String.intercalate ";" labels

/-- One node data row (processor.py lines 129-136): the normalized id, the
semicolon-joined labels, then one cell per metadata key, the empty string
when the node lacks the key. -/
def nodeRow (md : List String) (n : Node) : List String :=
  norm_id n.db_ns n.db_id :: joinLabels n.labels ::
    md.map (fun k => csvCell (n.data.lookup k))

/-- The node file header (processor.py line 138):
header = "id:ID", ":LABEL", *metadata. -/
def nodeHeader (md : List String) : List String := "id:ID" :: ":LABEL" :: md

/-- The records serialized into a node bulk file produced by dump: the nodes
are sorted in _dump_nodes (line 116) and then filtered by validate_nodes
inside _dump_nodes_to_path (line 127). -/
def nodeFileRecords (v : Validator) (nodes : List Node) : List Node :=
  validateNodes v (sortNodes nodes)

/-- The data rows of a node bulk file produced by dump. -/
def nodeDataRows (v : Validator) (nodes : List Node) : List (List String) :=
  (nodeFileRecords v nodes).map (nodeRow (nodeMetadata (nodeFileRecords v nodes)))

/-- The full row sequence of a node bulk file produced by dump: the header
(write mode is the default "wt", so the header is written), then the data
rows. -/
def nodeFileRows (v : Validator) (nodes : List Node) : List (List String) :=
  nodeHeader (nodeMetadata (nodeFileRecords v nodes)) :: nodeDataRows v nodes

/-- The rows of the node sample file (processor.py lines 144-150): the same
header, then the first ten data rows. -/
def nodeSampleRows (v : Validator) (nodes : List Node) : List (List String) :=
  nodeHeader (nodeMetadata (nodeFileRecords v nodes)) :: (nodeDataRows v nodes).take 10

/-- The native snapshot written by _dump_nodes (processor.py lines 116-118):
pickle.dump of the sorted node list, before any validation. -/
def dumpSnapshot (nodes : List Node) : List Node := sortNodes nodes

/-- Every attribute key of every relation, in order of appearance
(processor.py line 168). -/
def relDataKeys (rels : List Relation) : List String :=
  (rels.map (fun r => r.data.map Prod.fst)).flatten

/-- The attribute-column schema of an edge file (processor.py line 168). -/
def relMetadata (rels : List Relation) : List String := sortedKeys (relDataKeys rels)

/-- One edge data row (processor.py lines 169-177): normalized source id,
normalized target id, the relation type, then one cell per metadata key;
rel.data.get(key) yields None for a missing key and csv.writer serializes
None as the empty field. -/
def relRow (md : List String) (r : Relation) : List String :=
  norm_id r.source_ns r.source_id :: norm_id r.target_ns r.target_id :: r.rel_type ::
    md.map (fun k => csvCell (r.data.lookup k))

/-- The edge file header (processor.py line 181):
header = ":START_ID", ":END_ID", ":TYPE", *metadata. -/
def relHeader (md : List String) : List String :=
  ":START_ID" :: ":END_ID" :: ":TYPE" :: md

/-- The records serialized into an edge bulk file: _dump_edges_to_path
filters through validate_relations (line 164) and then sorts
(lines 165-167). -/
def edgeFileRecords (v : Validator) (rels : List Relation) : List Relation :=
  sortRels (validateRelations v rels)

/-- The data rows of an edge bulk file. -/
def edgeDataRows (v : Validator) (rels : List Relation) : List (List String) :=
  (edgeFileRecords v rels).map (relRow (relMetadata (edgeFileRecords v rels)))

/-- The full row sequence of an edge bulk file: header then data rows. -/
def edgeFileRows (v : Validator) (rels : List Relation) : List (List String) :=
  relHeader (relMetadata (edgeFileRecords v rels)) :: edgeDataRows v rels

/-- The rows of the edge sample file (processor.py lines 185-191). -/
def edgeSampleRows (v : Validator) (rels : List Relation) : List (List String) :=
  relHeader (relMetadata (edgeFileRecords v rels)) :: (edgeDataRows v rels).take 10

/-! ### Python exception model, Processor.dump and the cli loop -/

/-- The Python exceptions the embedded control flow can surface: a TypeError
from a mismatched call and the FileNotFoundError a processor constructor may
raise when its source data is absent. -/
inductive PyError
  | typeError
  | fileNotFound
deriving DecidableEq, Repr

/-- Python positional-argument binding: a call that supplies args positional
arguments to a function declaring params parameters raises TypeError unless
the counts match (no defaults are involved in the calls modelled here). -/
def bindPositional (params args : Nat) : Except PyError Unit :=
  if args = params then Except.ok () else Except.error PyError.typeError

/-- A processor, as the abstract Processor contract of processor.py sees it:
a name, the declared node types, and the node/relation producers.  File
paths are modelled as strings relative to the pystow module directory of the
processor. -/
structure ProcessorModel where
  name : String
  node_types : List String
  get_nodes : String → List Node
  get_relations : List Relation

/-- The body of Processor._get_node_paths (processor.py lines 92-103): with
more than one declared node type the node type is put into the file names,
otherwise the fixed names nodes.tsv.gz / nodes.pkl / nodes_sample.tsv are
used.  Returns (tabular path, native snapshot path, sample path). -/
def getNodePathsBody (p : ProcessorModel) (node_type : String) :
    String × String × String :=
  if 1 < p.node_types.length then
    (p.name ++ "/nodes_" ++ node_type ++ ".tsv.gz",
     p.name ++ "/nodes_" ++ node_type ++ ".pkl",
     p.name ++ "/nodes_" ++ node_type ++ "_sample.tsv")
  else
    (p.name ++ "/nodes.tsv.gz", p.name ++ "/nodes.pkl", p.name ++ "/nodes_sample.tsv")

/-- The call self._get_node_paths(node_type) of processor.py line 109 (and
the identical class-level call of cli.py lines 107-111): _get_node_paths is
declared @staticmethod yet its parameter list is (self, node_type), so the
single positional argument binds to the parameter self and the parameter
node_type is left without a value: Python raises TypeError before the body
runs. -/
def getNodePathsInvoke (p : ProcessorModel) (node_type : String) :
    Except PyError (String × String × String) := do
  let _ ← bindPositional 2 1
  pure (getNodePathsBody p node_type)

/-- The edges path of a processor (assigned in __init_subclass__,
processor.py line 56). -/
def edgesPath (p : ProcessorModel) : String := p.name ++ "/edges.tsv.gz"

/-- Processor._dump_nodes (processor.py lines 105-122): for every declared
node type, compute the three output paths, sort the produced nodes, write
the native snapshot and the tabular file, and collect the tabular path and
the sorted node list per type. -/
def dumpNodesModel (p : ProcessorModel) :
    Except PyError (List (String × String) × List (String × List Node)) := do
  let entries ← p.node_types.mapM (fun t => do
    let paths ← getNodePathsInvoke p t
    pure (t, paths.1, sortNodes (p.get_nodes t)))
  pure (entries.map (fun e => (e.1, e.2.1)), entries.map (fun e => (e.1, e.2.2)))

/-- Processor.dump (processor.py lines 84-88): dump the nodes, dump the
edges, and return (node paths by type, nodes by type, edges path). -/
def dumpModel (p : ProcessorModel) :
    Except PyError (List (String × String) × List (String × List Node) × String) := do
  let r ← dumpNodesModel p
  pure (r.1, r.2, edgesPath p)

/-- A registered extractor as the cli loop sees it: the processor data plus
whether it is importable, whether its constructor raises FileNotFoundError
(source data absent), and which of its output files already exist on disk. -/
structure ExtractorModel where
  proc : ProcessorModel
  importable : Bool
  init_raises : Bool
  path_exists : String → Bool

/-- The node types that go through cross-source assembly
(cli.py line 90). -/
def toAssemble : List String := ["BioEntity", "Publication"]

/-- The path of an assembled node file (cli.py lines 25-29). -/
def assembledPath (node_type : String) : String :=
  "assembled/nodes_" ++ node_type ++ ".tsv.gz"

/-- The manifest state threaded through the cli loop: the node file paths
and the edge file paths collected for the bulk import. -/
structure CliState where
  nodes_paths : List String
  edge_paths : List String
deriving DecidableEq, Repr

/-- One iteration of the extractor loop of cli.main (cli.py lines 98-160),
restricted to the manifest bookkeeping: skip non-importable extractors;
compute the per-node-type paths (the call of lines 107-111, which raises
TypeError as in getNodePathsInvoke); append the non-assembled node paths and
the edge path to the manifest; decide whether processing is needed; on a
FileNotFoundError from the constructor either re-raise (skip disabled) or
excise the just-added paths from both lists and continue (skip enabled);
otherwise run dump.  The assembler bookkeeping does not touch the manifest
and is omitted. -/
def mainStep (process force_process skip : Bool) (st : CliState)
    (e : ExtractorModel) : Except PyError CliState :=
  if ¬ e.importable then Except.ok st else do
    let triples ← e.proc.node_types.mapM (fun t => getNodePathsInvoke e.proc t)
    let withTypes := e.proc.node_types.zip triples
    let import_paths :=
      (withTypes.filter (fun p => ¬ toAssemble.contains p.1)).map (fun p => p.2.1)
    let processed :=
      (triples.all (fun tr => e.path_exists tr.1 && e.path_exists tr.2.1)) &&
        e.path_exists (edgesPath e.proc)
    let st : CliState :=
      { nodes_paths := st.nodes_paths ++ import_paths,
        edge_paths := st.edge_paths ++ [edgesPath e.proc] }
    if force_process || (process && ¬ processed) then
      if e.init_raises then
        if ¬ skip then Except.error PyError.fileNotFound
        else
          Except.ok
            { nodes_paths := import_paths.foldl (fun acc q => acc.erase q) st.nodes_paths,
              edge_paths := st.edge_paths.dropLast }
      else do
        let _ ← dumpModel e.proc
        Except.ok st
    else Except.ok st

/-- The cli.main extractor loop (cli.py lines 92-160): the manifest starts
with the assembled node paths and is folded over the registered
extractors. -/
def mainModel (process force_process skip : Bool) (exts : List ExtractorModel) :
    Except PyError CliState :=
  exts.foldlM (mainStep process force_process skip)
    ⟨toAssemble.map assembledPath, []⟩

/-! ### Bytes of the compressed output file

_dump_nodes_to_path and _dump_edges_to_path open the output through
gzip.open(path, "wt") (processor.py lines 139 and 179).  Python GzipFile
writes an RFC 1952 member whose fixed-layout header carries, at byte offsets
4 to 7, the modification time as a 32-bit little-endian integer; with the
default mtime=None the current wall-clock time is stored.  Everything after
the mtime field (the remaining header fields, the deflate stream of the
serialized rows and the trailer) depends only on the rows and is modelled by
an abstract function. -/

/-- A natural number as four little-endian bytes. -/
def le32 (n : Nat) : List Nat :=
  [n % 256, n / 256 % 256, n / 65536 % 256, n / 16777216 % 256]

/-- The bytes of a gzip member as written by gzip.open(path, "wt"): the
magic bytes 31 and 139, the deflate method byte 8, the FNAME flag byte 8,
the little-endian mtime, then the payload-determined remainder. -/
def gzipFileBytes (rest : List (List String) → List Nat) (mtime : Nat)
    (rows : List (List String)) : List Nat :=
  31 :: 139 :: 8 :: 8 :: (le32 mtime ++ rest rows)

/-! ### Assembler -/

/-- Modelled from the spec: the merge step of the NodeAssembler
(indra_cogex/assembly.py, absent from the src tree).  When an identifier is
seen again the two contributions are merged: the label set is the union of
the two label sets, and the attribute map is the union of the two maps where
the first-seen value of a key is retained and later sources may only add new
keys, never overwrite existing ones. -/
def mergeNode (a b : Node) : Node :=
  { db_ns := a.db_ns, db_id := a.db_id,
    labels := a.labels.union b.labels,
    data := a.data ++ b.data.filter (fun kv => (a.data.lookup kv.1).isNone) }

/-- Modelled from the spec: accumulation of one node into the in-memory
associative structure of the NodeAssembler, keyed by normalized
identifier. -/
def insertAssembled : List Node → Node → List Node
  | [], n => [n]
  | m :: rest, n =>
    if norm_id m.db_ns m.db_id = norm_id n.db_ns n.db_id then
      mergeNode m n :: rest
    else m :: insertAssembled rest n

/-- Modelled from the spec: NodeAssembler.assemble over a stream of nodes
from the registered extractors: accumulate nodes keyed by normalized
identifier, merging on every repeated identifier, and emit the merged nodes
as a sorted sequence. -/
def assembleNodes (nodes : List Node) : List Node :=
  sortNodes (nodes.foldl insertAssembled [])

/-! ### Helper lemmas -/

theorem validateNodesAux_eq (v : Validator) (i : Nat) (l : List Node) :
    validateNodesAux v i l =
      (l.filter (nodeValid v),
        ((List.enumFrom i l).filter (fun p => !nodeValid v p.2)).map
          (fun p => ⟨p.1, p.2, nodeReason v p.2⟩)) := by
  induction l generalizing i with
  | nil => rfl
  | cons n rest ih =>
    simp only [validateNodesAux, ih (i + 1), List.enumFrom, List.filter_cons]
    by_cases h : nodeValid v n
    · simp [h]
    · simp only [Bool.not_eq_true] at h
      simp [h]

theorem validateNodes_eq_filter (v : Validator) (l : List Node) :
    validateNodes v l = l.filter (nodeValid v) := by
  simp [validateNodes, validateNodesAux_eq]

theorem nodeDiags_eq (v : Validator) (l : List Node) :
    nodeDiags v l =
      ((l.enum.filter (fun p => !nodeValid v p.2)).map
        (fun p => ⟨p.1, p.2, nodeReason v p.2⟩)) := by
  simp [nodeDiags, validateNodesAux_eq, List.enum]

theorem validateRelationsAux_eq (v : Validator) (i : Nat) (l : List Relation) :
    validateRelationsAux v i l =
      (l.filter (relValid v),
        ((List.enumFrom i l).filter (fun p => !relValid v p.2)).map
          (fun p => ⟨p.1, p.2, relReason v p.2⟩)) := by
  induction l generalizing i with
  | nil => rfl
  | cons r rest ih =>
    simp only [validateRelationsAux, ih (i + 1), List.enumFrom, List.filter_cons]
    by_cases h : relValid v r
    · simp [h]
    · simp only [Bool.not_eq_true] at h
      simp [h]

theorem validateRelations_eq_filter (v : Validator) (l : List Relation) :
    validateRelations v l = l.filter (relValid v) := by
  simp [validateRelations, validateRelationsAux_eq]

theorem relDiags_eq (v : Validator) (l : List Relation) :
    relDiags v l =
      ((l.enum.filter (fun p => !relValid v p.2)).map
        (fun p => ⟨p.1, p.2, relReason v p.2⟩)) := by
  simp [relDiags, validateRelationsAux_eq, List.enum]

theorem sortNodes_pairwise (l : List Node) : (sortNodes l).Pairwise NodeLe :=
  List.sorted_insertionSort NodeLe l

theorem sortNodes_perm (l : List Node) : (sortNodes l).Perm l :=
  List.perm_insertionSort NodeLe l

theorem sortRels_pairwise (l : List Relation) : (sortRels l).Pairwise RelLe :=
  List.sorted_insertionSort RelLe l

theorem sortRels_perm (l : List Relation) : (sortRels l).Perm l :=
  List.perm_insertionSort RelLe l

theorem nodeFileRecords_pairwise (v : Validator) (l : List Node) :
    (nodeFileRecords v l).Pairwise NodeLe := by
  rw [nodeFileRecords, validateNodes_eq_filter]
  exact List.Pairwise.filter _ (sortNodes_pairwise l)

theorem edgeFileRecords_pairwise (v : Validator) (l : List Relation) :
    (edgeFileRecords v l).Pairwise RelLe :=
  List.sorted_insertionSort RelLe _

theorem nodeKeys_pairwise_le (v : Validator) (l : List Node) :
    ((nodeFileRecords v l).map nodeKey).Pairwise (fun a b => pairLeB a b = true) :=
  List.Pairwise.map nodeKey (fun _ _ h => h) (nodeFileRecords_pairwise v l)

theorem relKeys_pairwise_le (v : Validator) (l : List Relation) :
    ((edgeFileRecords v l).map relKey).Pairwise (fun a b => quadLeB a b = true) :=
  List.Pairwise.map relKey (fun _ _ h => h) (edgeFileRecords_pairwise v l)

theorem pairwise_lt_of_le_of_nodup {ks : List (String × String)}
    (hle : ks.Pairwise (fun a b => pairLeB a b = true)) (hnd : ks.Nodup) :
    ks.Pairwise (fun a b => pairLtB a b = true) :=
  (hle.and hnd).imp (fun h => pairLtB_of_pairLeB_of_ne h.1 h.2)

theorem quad_pairwise_lt_of_le_of_nodup
    {ks : List ((String × String) × (String × String))}
    (hle : ks.Pairwise (fun a b => quadLeB a b = true)) (hnd : ks.Nodup) :
    ks.Pairwise (fun a b => quadLtB a b = true) :=
  (hle.and hnd).imp (fun h => quadLtB_of_quadLeB_of_ne h.1 h.2)

theorem mem_sortedKeys {k : String} {ks : List String} :
    k ∈ sortedKeys ks ↔ k ∈ ks := by
  rw [sortedKeys]
  rw [(List.perm_insertionSort StrLe ks.dedup).mem_iff]
  exact List.mem_dedup

theorem sortedKeys_nodup (ks : List String) : (sortedKeys ks).Nodup :=
  ((List.perm_insertionSort StrLe ks.dedup).symm).nodup (List.nodup_dedup ks)

theorem sortedKeys_pairwise_lt (ks : List String) :
    (sortedKeys ks).Pairwise StrLt := by
  have hle : (sortedKeys ks).Pairwise StrLe :=
    List.sorted_insertionSort StrLe ks.dedup
  exact (hle.and (sortedKeys_nodup ks)).imp
    (fun h => strLtB_of_strLeB_of_ne h.1 h.2)

theorem mem_nodeMetadata {v : Validator} {l : List Node} {k : String} :
    k ∈ nodeMetadata (nodeFileRecords v l) ↔
      ∃ n ∈ nodeFileRecords v l, k ∈ n.data.map Prod.fst := by
  rw [nodeMetadata, mem_sortedKeys, nodeDataKeys]
  simp

theorem mem_relMetadata {v : Validator} {l : List Relation} {k : String} :
    k ∈ relMetadata (edgeFileRecords v l) ↔
      ∃ r ∈ edgeFileRecords v l, k ∈ r.data.map Prod.fst := by
  rw [relMetadata, mem_sortedKeys, relDataKeys]
  simp

theorem lookup_append (k : String) (l1 l2 : List (String × String)) :
    (l1 ++ l2).lookup k = ((l1.lookup k).or (l2.lookup k)) := by
  induction l1 with
  | nil => simp [List.lookup]
  | cons kv rest ih =>
    by_cases h : k == kv.1
    · simp [List.lookup, h]
    · simp [List.lookup, h, ih]

theorem lookup_isSome_iff {k : String} {l : List (String × String)} :
    (l.lookup k).isSome = true ↔ k ∈ l.map Prod.fst := by
  induction l with
  | nil => simp [List.lookup]
  | cons kv rest ih =>
    by_cases h : k == kv.1
    · simp only [beq_iff_eq] at h
      subst h
      simp [List.lookup]
    · have hne : ¬ k = kv.1 := by simpa using h
      simp [List.lookup, h, ih, hne]

theorem lookup_filter_of_not_mem {k : String} {l : List (String × String)}
    (p : String × String → Bool)
    (hp : ∀ kv, kv ∈ l → kv.1 = k → p kv = true) :
    (l.filter p).lookup k = l.lookup k := by
  induction l with
  | nil => rfl
  | cons kv rest ih =>
    have ihr : (rest.filter p).lookup k = rest.lookup k :=
      ih (fun kv2 h2 he => hp kv2 (List.mem_cons_of_mem kv h2) he)
    by_cases hk : k = kv.1
    · have : p kv = true := hp kv (List.mem_cons_self kv rest) hk.symm
      simp [List.filter_cons, this, List.lookup, beq_iff_eq, hk]
    · by_cases hpkv : p kv = true
      · simp [List.filter_cons, hpkv, List.lookup, beq_false_of_ne hk, ihr]
      · simp only [Bool.not_eq_true] at hpkv
        simp [List.filter_cons, hpkv, List.lookup, beq_false_of_ne hk, ihr]

theorem mergeNode_lookup (a b : Node) (k : String) :
    (mergeNode a b).data.lookup k =
      ((a.data.lookup k).or (b.data.lookup k)) := by
  rw [mergeNode]
  rw [lookup_append]
  rcases h : a.data.lookup k with _ | w
  · have : (b.data.filter (fun kv => (a.data.lookup kv.1).isNone)).lookup k =
        b.data.lookup k := by
      refine lookup_filter_of_not_mem _ (fun kv _ he => ?_)
      simp [he, h]
    simp [this]
  · simp

theorem length_filter_enumFrom {α : Type} (q : α → Bool) (i : Nat) (l : List α) :
    ((List.enumFrom i l).filter (fun p => q p.2)).length = (l.filter q).length := by
  induction l generalizing i with
  | nil => rfl
  | cons a rest ih =>
    simp only [List.enumFrom, List.filter_cons]
    by_cases h : q a
    · simp [h, ih]
    · simp only [Bool.not_eq_true] at h
      simp [h, ih]

/-! ### Concrete fixtures used by witnesses and counterexamples -/

/-- A validator that accepts every namespace/identifier pair. -/
def vAccept : Validator := fun _ _ => Except.ok ()

/-- A validator that rejects every namespace/identifier pair, as
assert_valid_db_refs does for namespaces absent from the identifiers
registry. -/
def vReject : Validator := fun _ _ => Except.error "Invalid db refs"

/-- A validator that accepts exactly the HGNC namespace; in particular it
rejects the internal namespace indra_evidence, which the external registry
does not know. -/
def vHGNC : Validator := fun ns _ =>
  if ns == "HGNC" then Except.ok () else Except.error "Invalid db refs"

/-- A well-formed gene node. -/
def hgncNode : Node := ⟨"HGNC", "1", ["BioEntity"], [("name", "gene")]⟩

/-- A node in the internal evidence namespace. -/
def evidenceNode : Node := ⟨"indra_evidence", "7", ["Evidence"], []⟩

/-- A node whose namespace no external registry knows. -/
def badNode : Node := ⟨"XXX", "9", ["BioEntity"], []⟩

/-- Two distinct valid nodes sharing the identifier pair
(indra_evidence, 1). -/
def dupNodeA : Node := ⟨"indra_evidence", "1", ["A"], []⟩

/-- Second node with the same identifier pair as dupNodeA. -/
def dupNodeB : Node := ⟨"indra_evidence", "1", ["B"], []⟩

/-- A well-formed relation between two endpoints. -/
def relAB : Relation := ⟨"A", "1", "B", "2", "T", [("s", "3")]⟩

/-- A relation with a validated source and an evidence-namespace target. -/
def evTargetRel : Relation := ⟨"HGNC", "1", "indra_evidence", "e1", "mentions", []⟩

/-- A processor shaped like InterproProcessor: one declared node type. -/
def interproLike : ProcessorModel := ⟨"interpro", ["BioEntity"], fun _ => [], []⟩

/-! ### Claims -/

/-- C1: the claim states that for a processor with a declared node-type
list, dump() completes without raising, writes the tabular node file, the
native snapshot and the sample file for each node type plus the edge file,
and returns their paths.  On the code as given this fails: _get_node_paths
is declared @staticmethod while its parameter list is (self, node_type), so
the call self._get_node_paths(node_type) at processor.py line 109 binds the
one positional argument to self and raises TypeError for the missing
node_type; dump() therefore raises for every processor with a nonempty
node-type list, here evaluated at a processor with node_types =
["BioEntity"]. -/
theorem C1_dump_raises_typeError :
    dumpModel interproLike = Except.error PyError.typeError := rfl

/-- C2 counterexample: the claim asserts strict ordering of node rows by
(namespace, local-id) for all valid inputs.  Two distinct valid nodes can
share the identifier pair (here two nodes in the evidence namespace, which
every validator keeps); both appear in the file and their keys are equal,
so the row keys are not strictly increasing. -/
theorem C2_counterexample :
    (nodeFileRecords vAccept [dupNodeA, dupNodeB]).length = 2 ∧
      ¬ ((nodeFileRecords vAccept [dupNodeA, dupNodeB]).map nodeKey).Pairwise
          (fun a b => pairLtB a b = true) := by
  constructor
  · rfl
  · decide

/-- C2 amended: in every bulk file produced by dump, node data rows are in
non-decreasing (namespace, local-id) order and relation data rows are in
non-decreasing (source ns, source id, target ns, target id) order; the
order is strict whenever no two serialized records share a sort key. -/
theorem C2_rows_sorted (v : Validator) (nodes : List Node) (rels : List Relation) :
    ((nodeFileRecords v nodes).map nodeKey).Pairwise (fun a b => pairLeB a b = true) ∧
    ((edgeFileRecords v rels).map relKey).Pairwise (fun a b => quadLeB a b = true) ∧
    (((nodeFileRecords v nodes).map nodeKey).Nodup →
      ((nodeFileRecords v nodes).map nodeKey).Pairwise (fun a b => pairLtB a b = true)) ∧
    (((edgeFileRecords v rels).map relKey).Nodup →
      ((edgeFileRecords v rels).map relKey).Pairwise (fun a b => quadLtB a b = true)) := by
  refine ⟨nodeKeys_pairwise_le v nodes, relKeys_pairwise_le v rels, ?_, ?_⟩
  · exact fun h => pairwise_lt_of_le_of_nodup (nodeKeys_pairwise_le v nodes) h
  · exact fun h => quad_pairwise_lt_of_le_of_nodup (relKeys_pairwise_le v rels) h

/-- C2 witness: the strict conclusions of C2_rows_sorted at concrete inputs
with pairwise distinct keys. -/
theorem C2_rows_sorted_witness :
    ((nodeFileRecords vAccept [hgncNode, badNode]).map nodeKey).Nodup ∧
    ((edgeFileRecords vAccept [relAB]).map relKey).Nodup ∧
    ((nodeFileRecords vAccept [hgncNode, badNode]).map nodeKey).Pairwise
      (fun a b => pairLtB a b = true) ∧
    ((edgeFileRecords vAccept [relAB]).map relKey).Pairwise
      (fun a b => quadLtB a b = true) :=
  ⟨by decide, by decide,
    (C2_rows_sorted vAccept [hgncNode, badNode] [relAB]).2.2.1 (by decide),
    (C2_rows_sorted vAccept [hgncNode, badNode] [relAB]).2.2.2 (by decide)⟩

/-- C3: in every bulk file, the attribute columns of the header are exactly
the sorted union of the attribute keys over the whole serialized record
set, every data row has exactly as many columns as the header, and an
attribute missing from a record appears in its row as the explicit empty
string at the position of that column. -/
theorem C3_schema_completeness (v : Validator) (nodes : List Node) (rels : List Relation) :
    (∀ k, k ∈ nodeMetadata (nodeFileRecords v nodes) ↔
        ∃ n ∈ nodeFileRecords v nodes, k ∈ n.data.map Prod.fst) ∧
    (nodeMetadata (nodeFileRecords v nodes)).Pairwise StrLt ∧
    (∀ row ∈ nodeDataRows v nodes,
        row.length = (nodeHeader (nodeMetadata (nodeFileRecords v nodes))).length) ∧
    (∀ n ∈ nodeFileRecords v nodes,
      ∀ i, ∀ h : i < (nodeMetadata (nodeFileRecords v nodes)).length,
        n.data.lookup ((nodeMetadata (nodeFileRecords v nodes)).get ⟨i, h⟩) = none →
        (nodeRow (nodeMetadata (nodeFileRecords v nodes)) n)[i + 2]? = some "") ∧
    (∀ k, k ∈ relMetadata (edgeFileRecords v rels) ↔
        ∃ r ∈ edgeFileRecords v rels, k ∈ r.data.map Prod.fst) ∧
    (relMetadata (edgeFileRecords v rels)).Pairwise StrLt ∧
    (∀ row ∈ edgeDataRows v rels,
        row.length = (relHeader (relMetadata (edgeFileRecords v rels))).length) ∧
    (∀ r ∈ edgeFileRecords v rels,
      ∀ i, ∀ h : i < (relMetadata (edgeFileRecords v rels)).length,
        r.data.lookup ((relMetadata (edgeFileRecords v rels)).get ⟨i, h⟩) = none →
        (relRow (relMetadata (edgeFileRecords v rels)) r)[i + 3]? = some "") := by
  refine ⟨fun k => mem_nodeMetadata, sortedKeys_pairwise_lt _, ?_, ?_,
    fun k => mem_relMetadata, sortedKeys_pairwise_lt _, ?_, ?_⟩
  · intro row hrow
    obtain ⟨n, _, rfl⟩ := List.mem_map.mp hrow
    simp [nodeRow, nodeHeader]
  · intro n _ i h hnone
    simp only [nodeRow, List.getElem?_cons_succ, List.getElem?_map]
    rw [List.getElem?_eq_getElem h]
    rw [List.get_eq_getElem] at hnone
    simp [hnone, csvCell]
  · intro row hrow
    obtain ⟨r, _, rfl⟩ := List.mem_map.mp hrow
    simp [relRow, relHeader]
  · intro r _ i h hnone
    simp only [relRow, List.getElem?_cons_succ, List.getElem?_map]
    rw [List.getElem?_eq_getElem h]
    rw [List.get_eq_getElem] at hnone
    simp [hnone, csvCell]

/-- C3 witness: the missing-attribute conclusions of C3_schema_completeness
at concrete inputs: badNode lacks the key name contributed by hgncNode, and
the single relation lacks nothing but the length conclusions apply. -/
theorem C3_schema_completeness_witness :
    badNode ∈ nodeFileRecords vAccept [hgncNode, badNode] ∧
    (0 < (nodeMetadata (nodeFileRecords vAccept [hgncNode, badNode])).length) ∧
    (nodeRow (nodeMetadata (nodeFileRecords vAccept [hgncNode, badNode])) badNode)[0 + 2]? =
      some "" ∧
    (nodeRow (nodeMetadata (nodeFileRecords vAccept [hgncNode, badNode])) hgncNode).length =
      (nodeHeader (nodeMetadata (nodeFileRecords vAccept [hgncNode, badNode]))).length :=
  ⟨by decide, by decide,
    (C3_schema_completeness vAccept [hgncNode, badNode] []).2.2.2.1 badNode (by decide)
      0 (by decide) (by decide),
    (C3_schema_completeness vAccept [hgncNode, badNode] []).2.2.1 _
      (by decide)⟩

/-- C4: validation failure of a record is non-fatal and order-preserving:
the yielded stream is exactly the filter of the input by the validity test,
in input order; one diagnostic is emitted per invalid record, carrying the
enumeration index of the record in the input, the record itself and the
exception message; the number of diagnostics equals the number of invalid
inputs.  The same holds for relations. -/
theorem C4_validation_diagnostics (v : Validator) (nodes : List Node) (rels : List Relation) :
    validateNodes v nodes = nodes.filter (nodeValid v) ∧
    nodeDiags v nodes =
      (nodes.enum.filter (fun p => !nodeValid v p.2)).map
        (fun p => ⟨p.1, p.2, nodeReason v p.2⟩) ∧
    (nodeDiags v nodes).length = nodes.countP (fun n => !nodeValid v n) ∧
    validateRelations v rels = rels.filter (relValid v) ∧
    relDiags v rels =
      (rels.enum.filter (fun p => !relValid v p.2)).map
        (fun p => ⟨p.1, p.2, relReason v p.2⟩) ∧
    (relDiags v rels).length = rels.countP (fun r => !relValid v r) := by
  refine ⟨validateNodes_eq_filter v nodes, nodeDiags_eq v nodes, ?_,
    validateRelations_eq_filter v rels, relDiags_eq v rels, ?_⟩
  · rw [nodeDiags_eq, List.length_map, List.countP_eq_length_filter, List.enum]
    exact length_filter_enumFrom (fun n => !nodeValid v n) 0 nodes
  · rw [relDiags_eq, List.length_map, List.countP_eq_length_filter, List.enum]
    exact length_filter_enumFrom (fun r => !relValid v r) 0 rels

/-- Definition following the words of claim C5: a relation endpoint is
acceptable when it passes external namespace validation or is in the
evidence namespace. -/
def endpointOkSpec (v : Validator) (ns idv : String) : Bool :=
  okB (v ns idv) || ns == "indra_evidence"

/-- Definition following the words of claim C5: the claim asserts that
validate_relations keeps a relation exactly when both endpoints are
independently acceptable in the sense of endpointOkSpec. -/
def specKeepRelation (v : Validator) (r : Relation) : Bool :=
  endpointOkSpec v r.source_ns r.source_id && endpointOkSpec v r.target_ns r.target_id

/-- C5 counterexample: with a validator that accepts exactly HGNC (and so
rejects the internal evidence namespace, which is the premise of the
exemption), the relation HGNC:1 -> indra_evidence:e1 is kept according to
the claim formula, yet validate_relations drops it: the code exempts only
the source endpoint, and the target indra_evidence:e1 is passed to the
external validator, which rejects it. -/
theorem C5_counterexample :
    specKeepRelation vHGNC evTargetRel = true ∧
      validateRelations vHGNC [evTargetRel] = [] := by
  constructor
  · rfl
  · decide

/-- C5 amended: validate_nodes keeps an evidence-namespace node without
consulting the external validator (it is kept under every validator), and
validate_relations keeps a relation exactly when its target passes external
validation and its source either passes external validation or is in the
evidence namespace: the exemption applies to the source endpoint only. -/
theorem C5_evidence_exemption (v : Validator) (nodes : List Node) (rels : List Relation) :
    validateNodes v nodes =
      nodes.filter (fun n => n.db_ns == "indra_evidence" || okB (v n.db_ns n.db_id)) ∧
    (∀ n ∈ nodes, n.db_ns = "indra_evidence" → ∀ w : Validator, n ∈ validateNodes w nodes) ∧
    validateRelations v rels =
      rels.filter (fun r =>
        okB (v r.target_ns r.target_id) &&
          (okB (v r.source_ns r.source_id) || r.source_ns == "indra_evidence")) := by
  refine ⟨validateNodes_eq_filter v nodes, ?_, ?_⟩
  · intro n hn he w
    rw [validateNodes_eq_filter]
    refine List.mem_filter.mpr ⟨hn, ?_⟩
    simp [nodeValid, he]
  · rw [validateRelations_eq_filter]
    refine List.filter_congr (fun r _ => ?_)
    rw [relValid]
    by_cases h : r.source_ns == "indra_evidence"
    · simp [h]
    · simp only [Bool.not_eq_true] at h
      simp [h, Bool.and_comm]

/-- C5 witness: the evidence-node conclusion of C5_evidence_exemption at a
concrete node and the all-rejecting validator. -/
theorem C5_evidence_exemption_witness :
    evidenceNode ∈ ([evidenceNode] : List Node) ∧
      evidenceNode.db_ns = "indra_evidence" ∧
      evidenceNode ∈ validateNodes vReject [evidenceNode] :=
  ⟨by decide, rfl,
    (C5_evidence_exemption vReject [evidenceNode] []).2.1 evidenceNode (by decide)
      rfl vReject⟩

/-- First extractor of the C6 scenario: importable, constructor succeeds. -/
def extractorA : ExtractorModel :=
  ⟨⟨"alpha", ["GeneDomain"], fun _ => [], []⟩, true, false, fun _ => false⟩

/-- Second extractor of the C6 scenario: its constructor raises
FileNotFoundError because its source data is absent. -/
def extractorB : ExtractorModel :=
  ⟨⟨"beta", ["GeneDomain"], fun _ => [], []⟩, true, true, fun _ => false⟩

/-- Third extractor of the C6 scenario: importable, constructor succeeds. -/
def extractorC : ExtractorModel :=
  ⟨⟨"gamma", ["GeneDomain"], fun _ => [], []⟩, true, false, fun _ => false⟩

/-- C6: the claim describes the skip-failed semantics of the cli loop: with
skip enabled the failed extractor is excised from both manifest lists and
processing continues, without skip the run aborts.  On the code as given
the loop never reaches the constructor try/except: the class-level call
processor_cls._get_node_paths(node_type) at cli.py lines 107-111 raises
TypeError (the same @staticmethod-with-self slip as in C1) for every
importable extractor with a declared node type, so the run aborts with no
manifest in both modes, here evaluated at three extractors whose second one
would raise FileNotFoundError. -/
theorem C6_main_raises_typeError :
    mainModel true false true [extractorA, extractorB, extractorC] =
        Except.error PyError.typeError ∧
      mainModel true false false [extractorA, extractorB, extractorC] =
        Except.error PyError.typeError := ⟨rfl, rfl⟩

/-- C7: assembling two nodes with the same normalized identifier yields
exactly the one merged node whose label set is the union of the label sets
and whose attribute map is the first-seen-wins union of the attribute maps;
in particular the concrete instance of the claim holds.  The NodeAssembler
is modelled from the spec (assembly.py is absent from the src tree). -/
theorem C7_assemble_merge (a b : Node)
    (h : norm_id a.db_ns a.db_id = norm_id b.db_ns b.db_id) :
    assembleNodes [a, b] = [mergeNode a b] ∧
    (∀ s, s ∈ (mergeNode a b).labels ↔ s ∈ a.labels ∨ s ∈ b.labels) ∧
    (∀ k w, a.data.lookup k = some w → (mergeNode a b).data.lookup k = some w) ∧
    (∀ k, a.data.lookup k = none → (mergeNode a b).data.lookup k = b.data.lookup k) ∧
    assembleNodes
        [⟨"X", "1", ["A"], [("k1", "v1")]⟩, ⟨"X", "1", ["B"], [("k2", "v2")]⟩] =
      [⟨"X", "1", ["A", "B"], [("k1", "v1"), ("k2", "v2")]⟩] := by
  refine ⟨?_, ?_, ?_, ?_, by decide⟩
  · show sortNodes (insertAssembled (insertAssembled [] a) b) = [mergeNode a b]
    simp only [insertAssembled, h, if_pos]
    rfl
  · intro s
    exact List.mem_union_iff
  · intro k w hw
    rw [mergeNode_lookup, hw]
    rfl
  · intro k hk
    rw [mergeNode_lookup, hk]
    rfl

/-- C7 witness: the hypothesis of C7_assemble_merge discharged at the two
concrete nodes of the claim. -/
theorem C7_assemble_merge_witness :
    norm_id "X" "1" = norm_id "X" "1" ∧
      assembleNodes
          [⟨"X", "1", ["A"], [("k1", "v1")]⟩, ⟨"X", "1", ["B"], [("k2", "v2")]⟩] =
        [mergeNode ⟨"X", "1", ["A"], [("k1", "v1")]⟩ ⟨"X", "1", ["B"], [("k2", "v2")]⟩] :=
  ⟨rfl,
    (C7_assemble_merge ⟨"X", "1", ["A"], [("k1", "v1")]⟩
      ⟨"X", "1", ["B"], [("k2", "v2")]⟩ rfl).1⟩

/-- C8 counterexample: the claim states the node file header row starts
with the column id; the file as written starts with the column id:ID
(processor.py line 138). -/
theorem C8_counterexample :
    (nodeFileRows vAccept [hgncNode]).head? =
        some ("id:ID" :: ":LABEL" :: nodeMetadata (nodeFileRecords vAccept [hgncNode])) ∧
      (nodeFileRows vAccept [hgncNode]).head? ≠
        some ("id" :: ":LABEL" :: nodeMetadata (nodeFileRecords vAccept [hgncNode])) := by
  constructor
  · rfl
  · decide

/-- C8 amended: the node file header row is id:ID, :LABEL, then the sorted
attribute keys, with the id:ID column of every data row holding the
normalized namespace:local-id string and the :LABEL column the
semicolon-joined label list; the relation file header row is :START_ID,
:END_ID, :TYPE, then the sorted attribute keys, with the corresponding
columns of every data row holding the normalized endpoint ids and the
relation type. -/
theorem C8_headers (v : Validator) (nodes : List Node) (rels : List Relation) :
    (nodeFileRows v nodes).head? =
      some ("id:ID" :: ":LABEL" :: nodeMetadata (nodeFileRecords v nodes)) ∧
    (∀ n ∈ nodeFileRecords v nodes,
      (nodeRow (nodeMetadata (nodeFileRecords v nodes)) n)[0]? =
          some (norm_id n.db_ns n.db_id) ∧
        (nodeRow (nodeMetadata (nodeFileRecords v nodes)) n)[1]? =
          some (joinLabels n.labels)) ∧
    (edgeFileRows v rels).head? =
      some (":START_ID" :: ":END_ID" :: ":TYPE" :: relMetadata (edgeFileRecords v rels)) ∧
    (∀ r ∈ edgeFileRecords v rels,
      (relRow (relMetadata (edgeFileRecords v rels)) r)[0]? =
          some (norm_id r.source_ns r.source_id) ∧
        (relRow (relMetadata (edgeFileRecords v rels)) r)[1]? =
          some (norm_id r.target_ns r.target_id) ∧
        (relRow (relMetadata (edgeFileRecords v rels)) r)[2]? = some r.rel_type) := by
  refine ⟨rfl, fun n _ => ?_, rfl, fun r _ => ?_⟩
  · constructor <;> simp [nodeRow]
  · refine ⟨?_, ?_, ?_⟩ <;> simp [relRow]

/-- C8 witness: the per-row conclusions of C8_headers at concrete records. -/
theorem C8_headers_witness :
    hgncNode ∈ nodeFileRecords vAccept [hgncNode] ∧
      (nodeRow (nodeMetadata (nodeFileRecords vAccept [hgncNode])) hgncNode)[0]? =
        some (norm_id hgncNode.db_ns hgncNode.db_id) ∧
      relAB ∈ edgeFileRecords vAccept [relAB] ∧
      (relRow (relMetadata (edgeFileRecords vAccept [relAB])) relAB)[2]? =
        some relAB.rel_type :=
  ⟨by decide,
    ((C8_headers vAccept [hgncNode] [relAB]).2.1 hgncNode (by decide)).1,
    by decide,
    ((C8_headers vAccept [hgncNode] [relAB]).2.2.2 relAB (by decide)).2.2⟩

/-- C9: the claim asserts byte-identical compressed output across two runs
over identical inputs.  The serialized rows are a pure function of the
input, but gzip.open stores the wall-clock modification time at byte
offsets 4 to 7 of the member header (GzipFile default mtime=None), so two
runs in different seconds produce compressed files that differ in those
bytes whatever the payload-determined remainder of the file is. -/
theorem C9_gzip_mtime (rest : List (List String) → List Nat)
    (rows : List (List String)) (m1 m2 : Nat) (h : m1 % 256 ≠ m2 % 256) :
    gzipFileBytes rest m1 rows ≠ gzipFileBytes rest m2 rows := by
  intro he
  apply h
  have h4 := congrArg (fun l => l[4]?) he
  simpa [gzipFileBytes, le32] using h4

/-- C9 witness: two mtimes one second apart, with the rows of a concrete
node file as payload. -/
theorem C9_gzip_mtime_witness :
    (100 % 256 ≠ 101 % 256) ∧
      gzipFileBytes (fun _ => []) 100 (nodeFileRows vAccept [hgncNode]) ≠
        gzipFileBytes (fun _ => []) 101 (nodeFileRows vAccept [hgncNode]) :=
  ⟨by decide,
    C9_gzip_mtime (fun _ => []) (nodeFileRows vAccept [hgncNode]) 100 101 (by decide)⟩

/-- C10: the native snapshot written by _dump_nodes holds exactly the full
node sequence of the processor, sorted by (namespace, local-id) and not
filtered by validation, so an invalid node is present in the snapshot while
it is absent from the tabular records; the sample file rows are drawn from
the validated data rows only. -/
theorem C10_snapshot_unfiltered (v : Validator) (nodes : List Node) :
    (dumpSnapshot nodes).Perm nodes ∧
    ((dumpSnapshot nodes).map nodeKey).Pairwise (fun a b => pairLeB a b = true) ∧
    (∀ n ∈ nodes, n ∈ dumpSnapshot nodes) ∧
    (∀ n, nodeValid v n = false → n ∉ nodeFileRecords v nodes) ∧
    (∀ row ∈ (nodeSampleRows v nodes).drop 1, row ∈ nodeDataRows v nodes) := by
  refine ⟨sortNodes_perm nodes,
    List.Pairwise.map nodeKey (fun _ _ hh => hh) (sortNodes_pairwise nodes), ?_, ?_, ?_⟩
  · intro n hn
    exact (sortNodes_perm nodes).mem_iff.mpr hn
  · intro n hval hmem
    rw [nodeFileRecords, validateNodes_eq_filter] at hmem
    have hv := (List.mem_filter.mp hmem).2
    rw [hval] at hv
    exact Bool.false_ne_true hv
  · intro row hrow
    rw [nodeSampleRows] at hrow
    simp only [List.drop_succ_cons, List.drop_zero] at hrow
    exact List.take_subset 10 _ hrow

/-- C10 witness: a node rejected by the validator is in the snapshot and
not among the tabular records, at concrete inputs. -/
theorem C10_snapshot_unfiltered_witness :
    badNode ∈ ([hgncNode, badNode] : List Node) ∧
      nodeValid vHGNC badNode = false ∧
      badNode ∈ dumpSnapshot [hgncNode, badNode] ∧
      badNode ∉ nodeFileRecords vHGNC [hgncNode, badNode] :=
  ⟨by decide, by decide,
    (C10_snapshot_unfiltered vHGNC [hgncNode, badNode]).2.2.1 badNode (by decide),
    (C10_snapshot_unfiltered vHGNC [hgncNode, badNode]).2.2.2.1 badNode (by decide)⟩

end IndraCogex
